import Mathlib

/-!
Shallow embedding of scripts/merge_goal_data.py.

The script joins two offline datasets about the goals of one player: a JSON
document of event records (Input A) and a CSV of shot rows (Input B).
Loader B filters rows, normalizes dates, and builds a lookup keyed by
date, period and time; the merger joins each event against that lookup
(with one fallback key variant) and an aggregation pass derives counts
and ranked top-N lists.

Modelling conventions:
  - CSV rows and JSON objects are string-keyed records; a row is an
    association list of column name to cell text, and an absent column
    resolves to none, mirroring dict.get returning None.  JSON null
    values are not distinguished from absent keys; the scraper emits
    strings for every field the script reads.
  - Python truthiness of an optional string: None and the empty string
    are falsy, everything else truthy.
  - float(s) is modelled by an acceptance predicate on the literal; a
    successfully parsed coordinate is represented by its source literal,
    which is faithful because the program never computes with the value,
    only carries it.  Numeric-separator underscores of Python literals
    are not modelled.
  - int(s) is modelled as stripping whitespace, an optional sign and a
    nonempty digit run; a failing conversion is the uncaught ValueError
    of the script, so the merge returns Except.error there.
  - The wall-clock mergedAt metadata field is omitted (real time).
-/

namespace OviMerge

/-- Python truthiness of an optional string: None and "" are falsy. -/
def truthyS (o : Option String) : Bool :=
  match o with
  | some s => s != ""
  | none => false

/-- Python `a or b` on optional strings: a when truthy, otherwise b. -/
def pyOr (a b : Option String) : Option String :=
  if truthyS a then a else b

/-- Python str() of an optional string: None prints as "None". -/
def pyStr (o : Option String) : String :=
  match o with
  | some s => s
  | none => "None"

/-- Python str.split with a one-character separator, at char-list level:
split("") gives [""], split on "a:b" at separator gives both pieces. -/
def pySplitSep (sep : Char) : List Char → List (List Char)
  | [] => [[]]
  | c :: cs =>
    if c = sep then [] :: pySplitSep sep cs
    else
      match pySplitSep sep cs with
      | [] => [[c]]
      | g :: gs => (c :: g) :: gs

/-- Python str.split with a one-character separator, on strings. -/
def pySplit (s : String) (sep : Char) : List String :=
  (pySplitSep sep s.data).map String.mk

/-- Nonempty run of decimal digits. -/
def digits1 (cs : List Char) : Bool :=
  !cs.isEmpty && cs.all Char.isDigit

/-- Numeric value of a digit run, most significant first. -/
def digitsVal (cs : List Char) : Nat :=
  cs.foldl (fun n c => n * 10 + (c.toNat - 48)) 0

/-- Python int(s): strip whitespace, optional sign, nonempty digit run;
none models the ValueError raised on anything else. -/
def pyInt (s : String) : Option Int :=
  let cs := s.data.dropWhile Char.isWhitespace
  let cs := (cs.reverse.dropWhile Char.isWhitespace).reverse
  match cs with
  | '+' :: r => if digits1 r then some (Int.ofNat (digitsVal r)) else none
  | '-' :: r => if digits1 r then some (-(Int.ofNat (digitsVal r))) else none
  | r => if digits1 r then some (Int.ofNat (digitsVal r)) else none

/-- Mantissa part of a Python float literal: digits, or digits with one
decimal point and at least one digit on some side. -/
def mantissaOk (cs : List Char) : Bool :=
  match pySplitSep '.' cs with
  | [a] => digits1 a
  | [a, b] => a.all Char.isDigit && b.all Char.isDigit && (!a.isEmpty || !b.isEmpty)
  | _ => false

/-- Body of a Python float literal after sign removal and lowercasing:
inf, infinity, nan, or mantissa with optional exponent. -/
def floatBodyOk (cs : List Char) : Bool :=
  let low := cs.map Char.toLower
  low == "inf".data || low == "infinity".data || low == "nan".data ||
    (match pySplitSep 'e' low with
     | [m] => mantissaOk m
     | [m, ex] =>
       let ex := match ex with
         | '+' :: r => r
         | '-' :: r => r
         | r => r
       mantissaOk m && digits1 ex
     | _ => false)

/-- Acceptance of Python float(s): strip whitespace, optional sign, then
an inf, nan or decimal body. -/
def pyFloatAccepts (s : String) : Bool :=
  let cs := s.data.dropWhile Char.isWhitespace
  let cs := (cs.reverse.dropWhile Char.isWhitespace).reverse
  let cs := match cs with
    | '+' :: r => r
    | '-' :: r => r
    | r => r
  floatBodyOk cs

/-- Python str.upper restricted to ASCII letters, as the script compares
against the ASCII constant GOAL. -/
def pyUpper (s : String) : String :=
  String.mk (s.data.map Char.toUpper)

/-- Left zero-padding to width 2, the format spec 0>2 of the script. -/
def padLeft2 (s : String) : String :=
  if 2 ≤ s.data.length then s else String.mk (List.replicate (2 - s.data.length) '0') ++ s

/-- Player ID of the subject in the NHL system, OVI_PLAYER_ID of the script. -/
def OVI_PLAYER_ID : Nat := 8471214

/-- One CSV row of Input B: association list of column name to cell text. -/
abbrev Row : Type := List (String × String)

/-- Python row.get(k): first matching column, none when absent. -/
def pyGet (row : Row) (k : String) : Option String :=
  match row with
  | [] => none
  | (k2, v) :: rest => if k2 = k then some v else pyGet rest k

/-- Shot-detail record built from one filtered Input B row.  Coordinates
hold the accepted float literal, none when null. -/
structure MPRecord where
  xCoord : Option String
  yCoord : Option String
  goalieName : Option String
  shotType : Option String
  gameId : Option String
  homeTeam : Option String
  awayTeam : Option String
deriving DecidableEq

/-- The JoinKey-to-shot-detail mapping built by the loader, as an
association list with Python-dict insertion semantics. -/
abbrev MPMap : Type := List (String × MPRecord)

/-- Python dict lookup: mp.get(key). -/
def lookupPy (m : MPMap) (k : String) : Option MPRecord :=
  match m with
  | [] => none
  | (k2, v) :: rest => if k2 = k then some v else lookupPy rest k

/-- Python dict assignment goals[key] = v: replace the value in place
when the key exists, append otherwise. -/
def insertPy (m : MPMap) (k : String) (v : MPRecord) : MPMap :=
  match m with
  | [] => [(k, v)]
  | (k2, v2) :: rest => if k2 = k then (k, v) :: rest else (k2, v2) :: insertPy rest k v

/-- Date normalization of the loader: an 8-character value is sliced into
YYYY-MM-DD positions; otherwise a value containing a slash is rebuilt
from its first three slash-parts; the IndexError of fewer than three
parts is swallowed and the raw value kept. -/
def normalizeDate (s : String) : String :=
  if s.data.length = 8 then
    String.mk (s.data.take 4) ++ "-" ++ String.mk ((s.data.drop 4).take 2) ++ "-" ++
      String.mk ((s.data.drop 6).take 2)
  else if s.data.contains '/' then
    match pySplit s '/' with
    | p0 :: p1 :: p2 :: _ => p2 ++ "-" ++ padLeft2 p0 ++ "-" ++ padLeft2 p1
    | _ => s
  else s

/-- Row filter of the loader: shooter id must print equal to the subject
id, and a truthy event column must read GOAL case-insensitively. -/
def rowPasses (row : Row) : Bool :=
  let shooter := pyOr (pyGet row "shooterPlayerId") (pyGet row "shooter_id")
  let ev := pyOr (pyGet row "event") (pyGet row "Event")
  pyStr shooter == toString OVI_PLAYER_ID &&
    (match ev with
     | some e => e == "" || pyUpper e == "GOAL"
     | none => true)

/-- JoinKey built by the loader: normalized-or-raw date, period and time
joined by underscores, falsy fields passing through str(). -/
def rowKey (row : Row) : String :=
  let gd := pyOr (pyOr (pyGet row "gameDate") (pyGet row "game_date")) (pyGet row "date")
  let gd := if truthyS gd then gd.map normalizeDate else gd
  let p := pyOr (pyGet row "period") (pyGet row "Period")
  let t := pyOr (pyOr (pyGet row "time") (pyGet row "Time")) (pyGet row "periodTime")
  pyStr gd ++ "_" ++ pyStr p ++ "_" ++ pyStr t

/-- Coordinate conversion guard of one resolved cell: a falsy cell skips
float() and an accepted literal parses; anything else raises. -/
def coordVal (o : Option String) : Except Unit (Option String) :=
  match o with
  | some s => if s = "" then Except.ok none else
      if pyFloatAccepts s then Except.ok (some s) else Except.error ()
  | none => Except.ok none

/-- The coordinate try-block of the loader: x is converted first, then y,
and the shared except-handler nulls both on any failure. -/
def parseCoords (x0 y0 : Option String) : Option String × Option String :=
  match coordVal x0 with
  | Except.error _ => (none, none)
  | Except.ok x =>
    match coordVal y0 with
    | Except.error _ => (none, none)
    | Except.ok y => (x, y)

/-- Shot-detail record of one Input B row, with synonym fallback per
field and the joint coordinate conversion. -/
def rowRecord (row : Row) : MPRecord :=
  let x0 := pyOr (pyOr (pyGet row "xCord") (pyGet row "xCoord")) (pyGet row "x")
  let y0 := pyOr (pyOr (pyGet row "yCord") (pyGet row "yCoord")) (pyGet row "y")
  let xy := parseCoords x0 y0
  { xCoord := xy.1
    yCoord := xy.2
    goalieName := pyOr (pyOr (pyGet row "goalieNameForShot") (pyGet row "goalie_name"))
      (pyGet row "goalieName")
    shotType := pyOr (pyGet row "shotType") (pyGet row "shot_type")
    gameId := pyOr (pyGet row "game_id") (pyGet row "gameId")
    homeTeam := pyOr (pyGet row "homeTeamCode") (pyGet row "home_team")
    awayTeam := pyOr (pyGet row "awayTeamCode") (pyGet row "away_team") }

/-- Loader loop over the CSV rows, threading the mapping. -/
def loadRows : List Row → MPMap → MPMap
  | [], m => m
  | r :: rs, m =>
    loadRows rs (if rowPasses r then insertPy m (rowKey r) (rowRecord r) else m)

/-- load_moneypuck_goals: an absent Input B file yields the empty
mapping, otherwise the rows are filtered and keyed. -/
def load_moneypuck_goals (file : Option (List Row)) : MPMap :=
  match file with
  | none => []
  | some rows => loadRows rows []

/-- One scoring event of Input A.  Fields the script only carries are
optional strings; isPlayoffs is read with default False. -/
structure EventRecord where
  careerGoalNum : Option String
  date : Option String
  season : Option String
  seasonDisplay : Option String
  opponent : Option String
  period : Option String
  time : Option String
  goalType : Option String
  primaryAssist : Option String
  secondaryAssist : Option String
  isPlayoffs : Bool
deriving DecidableEq

/-- The loaded Input A document: its goals sequence. -/
structure HRDoc where
  goals : List EventRecord
deriving DecidableEq

/-- Unified output record: the event fields plus the four shot-derived
fields, null when unmatched. -/
structure MergedRecord where
  careerGoalNum : Option String
  date : Option String
  season : Option String
  seasonDisplay : Option String
  opponent : Option String
  period : Option String
  time : Option String
  goalType : Option String
  primaryAssist : Option String
  secondaryAssist : Option String
  isPlayoffs : Bool
  xCoord : Option String
  yCoord : Option String
  goalieName : Option String
  shotType : Option String
deriving DecidableEq

/-- JoinKey built by the merger from resolved date, period and time. -/
def hrKey (d p t : String) : String :=
  d ++ "_" ++ p ++ "_" ++ t

/-- MergedRecord assembled from an event and an optional shot record:
the unmatched branch writes explicit nulls for every shot field. -/
def mkMerged (g : EventRecord) (od : Option MPRecord) : MergedRecord :=
  { careerGoalNum := g.careerGoalNum
    date := g.date
    season := g.season
    seasonDisplay := g.seasonDisplay
    opponent := g.opponent
    period := g.period
    time := g.time
    goalType := g.goalType
    primaryAssist := g.primaryAssist
    secondaryAssist := g.secondaryAssist
    isPlayoffs := g.isPlayoffs
    xCoord := match od with
      | some d => d.xCoord
      | none => none
    yCoord := match od with
      | some d => d.yCoord
      | none => none
    goalieName := match od with
      | some d => d.goalieName
      | none => none
    shotType := match od with
      | some d => d.shotType
      | none => none }

/-- Fallback lookup of the merger: split the time on the colon and, with
exactly two parts, re-render the hour through int(); a non-integer hour
is the uncaught ValueError of the script. -/
def tryFallback (mp : MPMap) (d p t : String) : Except String (Option MPRecord) :=
  match pySplit t ':' with
  | [h1, m1] =>
    match pyInt h1 with
    | some n => Except.ok (lookupPy mp (hrKey d p (toString n ++ ":" ++ m1)))
    | none => Except.error ("invalid literal for int with base 10: " ++ h1)
  | _ => Except.ok none

/-- One iteration of the merge loop: primary lookup, one fallback retry,
then the assembled record together with its matched flag. -/
def mergeStep (mp : MPMap) (g : EventRecord) : Except String (MergedRecord × Bool) :=
  let d := g.date.getD ""
  let p := g.period.getD ""
  let t := g.time.getD ""
  match lookupPy mp (hrKey d p t) with
  | some r => Except.ok (mkMerged g (some r), true)
  | none =>
    match tryFallback mp d p t with
    | Except.error e => Except.error e
    | Except.ok od => Except.ok (mkMerged g od, od.isSome)

/-- The merge loop over the event list, producing the merged records in
input order together with the matched and unmatched counters. -/
def mergeGoals (mp : MPMap) : List EventRecord → Except String (List MergedRecord × Nat × Nat)
  | [] => Except.ok ([], 0, 0)
  | g :: gs =>
    match mergeStep mp g with
    | Except.error e => Except.error e
    | Except.ok (m, b) =>
      match mergeGoals mp gs with
      | Except.error e => Except.error e
      | Except.ok (ms, mat, unm) =>
        Except.ok (m :: ms, mat + (if b then 1 else 0), unm + (if b then 0 else 1))

/-- Grouped counter update: get-or-zero-then-increment of a defaultdict
entry, preserving first-insertion order. -/
def incr (m : List (String × Nat)) (k : String) : List (String × Nat) :=
  match m with
  | [] => [(k, 1)]
  | (k2, v) :: rest => if k2 = k then (k2, v + 1) :: rest else (k2, v) :: incr rest k

/-- Conditional counter update: only a truthy field value counts. -/
def incrIf (m : List (String × Nat)) (o : Option String) : List (String × Nat) :=
  match o with
  | some s => if s = "" then m else incr m s
  | none => m

/-- One grouped count map of rebuild_stats, over one field selector. -/
def buildCounts (f : MergedRecord → Option String) (gs : List MergedRecord) :
    List (String × Nat) :=
  gs.foldl (fun m g => incrIf m (f g)) []

/-- The combined assister count map: both assist fields of every record
feed the same map, primary first. -/
def buildAssists (gs : List MergedRecord) : List (String × Nat) :=
  gs.foldl (fun m g => incrIf (incrIf m g.primaryAssist) g.secondaryAssist) []

/-- Stable descending insertion by count: a new entry goes before the
first entry of smaller or equal count reached from the right, which
reproduces the stable reverse sort of the script. -/
def insertDesc (x : String × Nat) : List (String × Nat) → List (String × Nat)
  | [] => [x]
  | y :: ys => if y.2 ≤ x.2 then x :: y :: ys else y :: insertDesc x ys

/-- Stable sort by descending count, the sorted(key, reverse) call. -/
def sortDesc : List (String × Nat) → List (String × Nat)
  | [] => []
  | x :: xs => insertDesc x (sortDesc xs)

/-- StatsSummary: six grouped count maps plus the three ranked lists. -/
structure Stats where
  bySeason : List (String × Nat)
  byOpponent : List (String × Nat)
  byGoalType : List (String × Nat)
  byGoalie : List (String × Nat)
  byAnyAssist : List (String × Nat)
  byShotType : List (String × Nat)
  topAssisters : List (String × Nat)
  topGoalies : List (String × Nat)
  topOpponents : List (String × Nat)
deriving DecidableEq

/-- rebuild_stats: filter to non-playoff records, accumulate the six
grouped counts, then cut the three descending top lists. -/
def rebuild_stats (goals : List MergedRecord) : Stats :=
  let regular := goals.filter (fun g => !g.isPlayoffs)
  let anyAssist := buildAssists regular
  let byGoalie := buildCounts (fun g => g.goalieName) regular
  let byOpponent := buildCounts (fun g => g.opponent) regular
  { bySeason := buildCounts (fun g => g.season) regular
    byOpponent := byOpponent
    byGoalType := buildCounts (fun g => g.goalType) regular
    byGoalie := byGoalie
    byAnyAssist := anyAssist
    byShotType := buildCounts (fun g => g.shotType) regular
    topAssisters := (sortDesc anyAssist).take 20
    topGoalies := (sortDesc byGoalie).take 20
    topOpponents := (sortDesc byOpponent).take 10 }

/-- Output metadata block; the wall-clock mergedAt field is omitted. -/
structure Metadata where
  player : String
  playerId : Nat
  sources : List String
  regularSeasonGoals : Nat
  playoffGoals : Nat
  goalsWithCoordinates : Nat
deriving DecidableEq

/-- The output document written by the script. -/
structure OutputDoc where
  metadata : Metadata
  stats : Stats
  goals : List MergedRecord
deriving DecidableEq

/-- merge_data on a loaded Input A document: run the merge loop, rebuild
the stats, and assemble the output document; an error is the uncaught
exception of the fallback int() conversion. -/
def merge_data (hr : HRDoc) (mp : MPMap) : Except String OutputDoc :=
  match mergeGoals mp hr.goals with
  | Except.error e => Except.error e
  | Except.ok (ms, mat, _) =>
    Except.ok
      { metadata :=
          { player := "Alex Ovechkin"
            playerId := OVI_PLAYER_ID
            sources := ["Hockey Reference", "MoneyPuck"]
            regularSeasonGoals := (ms.filter (fun g => !g.isPlayoffs)).length
            playoffGoals := (ms.filter (fun g => g.isPlayoffs)).length
            goalsWithCoordinates := mat }
        stats := rebuild_stats ms
        goals := ms }

/-- Sum of all counter values of a grouped count map. -/
def sumValues (m : List (String × Nat)) : Nat :=
  (m.map Prod.snd).sum

/-- Specification-side reading of the duplicate-key sentence of the
spec: the shot-detail record of the last filtered row in file order
whose JoinKey is k, to be compared with the lookup into the mapping the
loader actually builds. -/
def lastKeyed : List Row → String → Option MPRecord
  | [], _ => none
  | r :: rs, k =>
    match lastKeyed rs k with
    | some v => some v
    | none => if rowPasses r = true ∧ rowKey r = k then some (rowRecord r) else none

/-- Specification-side guard for one coordinate cell: a falsy cell or an
accepted float literal does not raise. -/
def okCoord (o : Option String) : Bool :=
  match o with
  | some s => s == "" || pyFloatAccepts s
  | none => true

/-- Fixture: one event record with a zero-padded hour in its time. -/
def gEx : EventRecord :=
  { careerGoalNum := some "1", date := some "2005-10-05", season := some "2005-06",
    seasonDisplay := some "05-06", opponent := some "CBJ", period := some "2",
    time := some "08:15", goalType := some "EV", primaryAssist := some "Dainius Zubrus",
    secondaryAssist := none, isPlayoffs := false }

/-- Fixture: one shot-detail record. -/
def recEx : MPRecord :=
  { xCoord := some "12.5", yCoord := some "-3.0", goalieName := some "Pascal Leclaire",
    shotType := some "WRIST", gameId := some "20012", homeTeam := some "WSH",
    awayTeam := some "CBJ" }

/-- Fixture: a mapping keyed with the unpadded-hour time variant. -/
def mpEx : MPMap := [("2005-10-05_2_8:15", recEx)]

/-- Fixture: a loaded Input A document holding the one event. -/
def hrEx : HRDoc := ⟨[gEx]⟩

/-- Fixture: an Input B row whose x cell parses and whose y cell does
not. -/
def rowEx : Row :=
  [("shooterPlayerId", "8471214"), ("event", "GOAL"), ("gameDate", "20051005"),
   ("period", "2"), ("time", "8:15"), ("xCord", "1.5"), ("yCord", "abc")]

/-- Fixture: first of two Input B rows sharing one JoinKey. -/
def rowDupA : Row :=
  [("shooterPlayerId", "8471214"), ("event", "GOAL"), ("gameDate", "20051005"),
   ("period", "2"), ("time", "8:15"), ("xCord", "1.5"), ("yCord", "2.5")]

/-- Fixture: second of two Input B rows sharing one JoinKey. -/
def rowDupB : Row :=
  [("shooterPlayerId", "8471214"), ("event", "GOAL"), ("gameDate", "20051005"),
   ("period", "2"), ("time", "8:15"), ("xCord", "-7.0"), ("yCord", "30.5")]

/-- Fixture: an event whose time has a non-integer hour part, the input
that trips the fallback conversion. -/
def gBad : EventRecord :=
  { careerGoalNum := none, date := some "2005-10-05", season := none,
    seasonDisplay := none, opponent := none, period := some "2",
    time := some "ab:15", goalType := none, primaryAssist := none,
    secondaryAssist := none, isPlayoffs := false }

/-- Fixture: the output document of the merge on an empty event list. -/
def outEmpty : OutputDoc :=
  { metadata :=
      { player := "Alex Ovechkin", playerId := OVI_PLAYER_ID,
        sources := ["Hockey Reference", "MoneyPuck"],
        regularSeasonGoals := 0, playoffGoals := 0, goalsWithCoordinates := 0 }
    stats :=
      { bySeason := [], byOpponent := [], byGoalType := [], byGoalie := [],
        byAnyAssist := [], byShotType := [], topAssisters := [], topGoalies := [],
        topOpponents := [] }
    goals := [] }

/-- Fixture: the output document of the merge of hrEx against the empty
mapping of a missing Input B file. -/
def outNoMP : OutputDoc :=
  { metadata :=
      { player := "Alex Ovechkin", playerId := OVI_PLAYER_ID,
        sources := ["Hockey Reference", "MoneyPuck"],
        regularSeasonGoals := 1, playoffGoals := 0, goalsWithCoordinates := 0 }
    stats :=
      { bySeason := [("2005-06", 1)], byOpponent := [("CBJ", 1)],
        byGoalType := [("EV", 1)], byGoalie := [],
        byAnyAssist := [("Dainius Zubrus", 1)], byShotType := [],
        topAssisters := [("Dainius Zubrus", 1)], topGoalies := [],
        topOpponents := [("CBJ", 1)] }
    goals := [mkMerged gEx none] }

/-- Helper: a completed merge loop yields one merged record per event
and its two counters partition the output list. -/
theorem mergeGoals_ok_spec (mp : MPMap) :
    ∀ (gs : List EventRecord) (ms : List MergedRecord) (mat unm : Nat),
      mergeGoals mp gs = Except.ok (ms, mat, unm) →
      ms.length = gs.length ∧ mat + unm = ms.length := by
  intro gs
  induction gs with
  | nil =>
    intro ms mat unm h
    simp only [mergeGoals, Except.ok.injEq, Prod.mk.injEq] at h
    obtain ⟨h1, h2, h3⟩ := h
    subst h1; subst h2; subst h3
    simp
  | cons g gs ih =>
    intro ms mat unm h
    simp only [mergeGoals] at h
    cases hg : mergeStep mp g with
    | error e => rw [hg] at h; exact absurd h (by simp)
    | ok mb =>
      rw [hg] at h
      obtain ⟨m, b⟩ := mb
      cases hrec : mergeGoals mp gs with
      | error e => rw [hrec] at h; exact absurd h (by simp)
      | ok triple =>
        obtain ⟨ms2, mat2, unm2⟩ := triple
        rw [hrec] at h
        simp only [Except.ok.injEq, Prod.mk.injEq] at h
        obtain ⟨hm, hmat, hunm⟩ := h
        obtain ⟨hl, hc⟩ := ih ms2 mat2 unm2 hrec
        subst hm; subst hmat; subst hunm
        constructor
        · simp [hl]
        · cases b <;> simp <;> omega

/-- C1: merge_data produces exactly one MergedRecord per element of the
loaded goals sequence, so whenever the merge completes, the output goals
list has the length of the input event list, regardless of how many
lookups match. -/
theorem merge_preserves_goal_count (hr : HRDoc) (mp : MPMap) (out : OutputDoc)
    (h : merge_data hr mp = Except.ok out) :
    out.goals.length = hr.goals.length := by
  simp only [merge_data] at h
  cases hrec : mergeGoals mp hr.goals with
  | error e => rw [hrec] at h; exact absurd h (by simp)
  | ok triple =>
    obtain ⟨ms, mat, unm⟩ := triple
    rw [hrec] at h
    simp only [Except.ok.injEq] at h
    obtain ⟨hl, _⟩ := mergeGoals_ok_spec mp hr.goals ms mat unm hrec
    subst h
    simpa using hl

/-- Witness for C1 at a concrete input. -/
theorem merge_preserves_goal_count_witness :
    outEmpty.goals.length = (HRDoc.mk []).goals.length :=
  merge_preserves_goal_count ⟨[]⟩ [] outEmpty rfl

/-- C9: after the merge loop completes, matched plus unmatched equals
the number of MergedRecords in the output, and the matched counter is
what merge_data records as goalsWithCoordinates. -/
theorem counters_partition (hr : HRDoc) (mp : MPMap) (ms : List MergedRecord)
    (mat unm : Nat) (h : mergeGoals mp hr.goals = Except.ok (ms, mat, unm)) :
    mat + unm = ms.length ∧
      ∃ out, merge_data hr mp = Except.ok out ∧ out.goals = ms ∧
        out.metadata.goalsWithCoordinates = mat := by
  obtain ⟨_, hc⟩ := mergeGoals_ok_spec mp hr.goals ms mat unm h
  refine ⟨hc,
    ⟨{ metadata :=
        { player := "Alex Ovechkin", playerId := OVI_PLAYER_ID,
          sources := ["Hockey Reference", "MoneyPuck"],
          regularSeasonGoals := (ms.filter (fun g => !g.isPlayoffs)).length,
          playoffGoals := (ms.filter (fun g => g.isPlayoffs)).length,
          goalsWithCoordinates := mat }
       stats := rebuild_stats ms
       goals := ms }, ?_, rfl, rfl⟩⟩
  simp only [merge_data, h]

/-- Witness for C9 at a concrete input. -/
theorem counters_partition_witness :
    (0 : Nat) + 1 = [mkMerged gEx none].length ∧
      ∃ out, merge_data hrEx [] = Except.ok out ∧ out.goals = [mkMerged gEx none] ∧
        out.metadata.goalsWithCoordinates = 0 :=
  counters_partition hrEx [] [mkMerged gEx none] 0 1 rfl

/-- Helper: a merge step that raises aborts the whole loop with some
error. -/
theorem mergeGoals_error_of_mem (mp : MPMap) :
    ∀ (gs : List EventRecord) (g : EventRecord) (e : String),
      g ∈ gs → mergeStep mp g = Except.error e →
      ∃ e2, mergeGoals mp gs = Except.error e2 := by
  intro gs
  induction gs with
  | nil => intro g e hmem; exact absurd hmem (by simp)
  | cons g2 gs ih =>
    intro g e hmem hstep
    rcases List.mem_cons.mp hmem with hg | hg
    · subst hg
      exact ⟨e, by simp only [mergeGoals, hstep]⟩
    · cases hg2 : mergeStep mp g2 with
      | error e3 => exact ⟨e3, by simp only [mergeGoals, hg2]⟩
      | ok mb =>
        obtain ⟨e2, he2⟩ := ih g e hg hstep
        obtain ⟨m, b⟩ := mb
        exact ⟨e2, by simp only [mergeGoals, hg2, he2]⟩

/-- C10: an event whose primary key misses the mapping and whose time
splits into exactly two colon-parts with a non-integer hour makes
merge_data raise from the fallback int conversion, aborting the run
instead of producing a null-filled record. -/
theorem fallback_int_error (hr : HRDoc) (mp : MPMap) (g : EventRecord) (h1 m1 : String)
    (hmem : g ∈ hr.goals)
    (hmiss : lookupPy mp (hrKey (g.date.getD "") (g.period.getD "") (g.time.getD "")) = none)
    (hsplit : pySplit (g.time.getD "") ':' = [h1, m1])
    (hbad : pyInt h1 = none) :
    ∃ e, merge_data hr mp = Except.error e := by
  have hstep : mergeStep mp g =
      Except.error ("invalid literal for int with base 10: " ++ h1) := by
    simp only [mergeStep, tryFallback, hmiss, hsplit, hbad]
  obtain ⟨e2, he2⟩ := mergeGoals_error_of_mem mp hr.goals g _ hmem hstep
  exact ⟨e2, by simp only [merge_data, he2]⟩

/-- Witness for C10 at a concrete input. -/
theorem fallback_int_error_witness :
    ∃ e, merge_data ⟨[gBad]⟩ [] = Except.error e :=
  fallback_int_error ⟨[gBad]⟩ [] gBad "ab" "15" (List.mem_singleton.mpr rfl) rfl rfl rfl

/-- C3: an event whose primary key misses the mapping and whose time
splits into exactly two colon-parts with an integer hour is settled by
exactly one retry against the key rebuilt with the hour rendered without
a leading zero. -/
theorem fallback_key_retry (mp : MPMap) (g : EventRecord) (h1 m1 : String) (n : Int)
    (hmiss : lookupPy mp (hrKey (g.date.getD "") (g.period.getD "") (g.time.getD "")) = none)
    (hsplit : pySplit (g.time.getD "") ':' = [h1, m1])
    (hint : pyInt h1 = some n) :
    mergeStep mp g =
      Except.ok
        (mkMerged g
          (lookupPy mp (hrKey (g.date.getD "") (g.period.getD "") (toString n ++ ":" ++ m1))),
          (lookupPy mp
            (hrKey (g.date.getD "") (g.period.getD "") (toString n ++ ":" ++ m1))).isSome) := by
  simp only [mergeStep, tryFallback, hmiss, hsplit, hint]

/-- Witness for C3: time 08:15 matches a shot-detail entry keyed 8:15
with the same date and period. -/
theorem fallback_key_retry_witness :
    mergeStep mpEx gEx = Except.ok (mkMerged gEx (some recEx), true) := by
  have h := fallback_key_retry mpEx gEx "08" "15" 8 rfl rfl rfl
  rw [h]
  rfl

/-- Helper: against the empty mapping a non-raising merge step always
yields the null-filled record and an unmatched flag. -/
theorem mergeStep_nil (g : EventRecord) (m : MergedRecord) (b : Bool)
    (h : mergeStep [] g = Except.ok (m, b)) :
    m = mkMerged g none ∧ b = false := by
  simp only [mergeStep, tryFallback, lookupPy] at h
  split at h
  · exact absurd h (by simp)
  · rename_i od heq
    have hod : od = none := by
      split at heq
      · split at heq
        · simp only [Except.ok.injEq] at heq
          exact heq.symm
        · exact absurd heq (by simp)
      · simp only [Except.ok.injEq] at heq
        exact heq.symm
    subst hod
    simp only [Except.ok.injEq, Prod.mk.injEq, Option.isSome_none] at h
    obtain ⟨hm, hb⟩ := h
    exact ⟨hm.symm, hb.symm⟩

/-- Helper: a completed merge loop against the empty mapping counts zero
matches and fills every shot-derived field with null. -/
theorem mergeGoals_nil_spec :
    ∀ (gs : List EventRecord) (ms : List MergedRecord) (mat unm : Nat),
      mergeGoals [] gs = Except.ok (ms, mat, unm) →
      mat = 0 ∧ ∀ m ∈ ms,
        m.xCoord = none ∧ m.yCoord = none ∧ m.goalieName = none ∧ m.shotType = none := by
  intro gs
  induction gs with
  | nil =>
    intro ms mat unm h
    simp only [mergeGoals, Except.ok.injEq, Prod.mk.injEq] at h
    obtain ⟨h1, h2, _⟩ := h
    subst h1; subst h2
    simp
  | cons g gs ih =>
    intro ms mat unm h
    simp only [mergeGoals] at h
    cases hg : mergeStep [] g with
    | error e => rw [hg] at h; exact absurd h (by simp)
    | ok mb =>
      rw [hg] at h
      obtain ⟨m, b⟩ := mb
      cases hrec : mergeGoals [] gs with
      | error e => rw [hrec] at h; exact absurd h (by simp)
      | ok triple =>
        obtain ⟨ms2, mat2, unm2⟩ := triple
        rw [hrec] at h
        simp only [Except.ok.injEq, Prod.mk.injEq] at h
        obtain ⟨hm, hmat, _⟩ := h
        obtain ⟨hmk, hb⟩ := mergeStep_nil g m b hg
        obtain ⟨hmat2, hnull⟩ := ih ms2 mat2 unm2 hrec
        subst hm; subst hmat
        constructor
        · rw [hmat2, hb]; rfl
        · intro m2 hm2
          rcases List.mem_cons.mp hm2 with hh | hh
          · subst hh; rw [hmk]; exact ⟨rfl, rfl, rfl, rfl⟩
          · exact hnull m2 hh

/-- C7: a missing Input B file makes the loader return the empty
mapping, and the run it feeds produces, whenever the merge loop
completes, an output in which every record has null shot-derived fields
and goalsWithCoordinates is zero. -/
theorem missing_inputB :
    load_moneypuck_goals none = [] ∧
      ∀ (hr : HRDoc) (out : OutputDoc),
        merge_data hr (load_moneypuck_goals none) = Except.ok out →
        (∀ m ∈ out.goals,
          m.xCoord = none ∧ m.yCoord = none ∧ m.goalieName = none ∧ m.shotType = none) ∧
        out.metadata.goalsWithCoordinates = 0 := by
  refine ⟨rfl, ?_⟩
  intro hr out h
  simp only [load_moneypuck_goals, merge_data] at h
  cases hrec : mergeGoals [] hr.goals with
  | error e => rw [hrec] at h; exact absurd h (by simp)
  | ok triple =>
    obtain ⟨ms, mat, unm⟩ := triple
    rw [hrec] at h
    simp only [Except.ok.injEq] at h
    obtain ⟨hmat, hnull⟩ := mergeGoals_nil_spec hr.goals ms mat unm hrec
    subst h
    exact ⟨hnull, hmat⟩

/-- Witness for C7 at a concrete input. -/
theorem missing_inputB_witness :
    (∀ m ∈ outNoMP.goals,
      m.xCoord = none ∧ m.yCoord = none ∧ m.goalieName = none ∧ m.shotType = none) ∧
    outNoMP.metadata.goalsWithCoordinates = 0 :=
  missing_inputB.2 hrEx outNoMP rfl

/-- Helper: one counter increment raises the value sum by one. -/
theorem sumValues_incr (m : List (String × Nat)) (k : String) :
    sumValues (incr m k) = sumValues m + 1 := by
  induction m with
  | nil => rfl
  | cons p rest ih =>
    obtain ⟨k2, v⟩ := p
    by_cases h : k2 = k
    · simp [incr, h, sumValues]
      omega
    · simp only [incr, if_neg h, sumValues, List.map_cons, List.sum_cons] at *
      omega

/-- Helper: a conditional increment raises the value sum by one exactly
on a truthy field value. -/
theorem sumValues_incrIf (m : List (String × Nat)) (o : Option String) :
    sumValues (incrIf m o) = sumValues m + (if truthyS o then 1 else 0) := by
  cases o with
  | none => simp [incrIf, truthyS]
  | some s =>
    by_cases h : s = ""
    · simp [incrIf, truthyS, h]
    · simp [incrIf, truthyS, h, sumValues_incr]

/-- Helper: the value sum of a grouped count map equals the number of
records whose selected field is truthy. -/
theorem sumValues_buildCounts (f : MergedRecord → Option String) :
    ∀ (l : List MergedRecord) (m : List (String × Nat)),
      sumValues (l.foldl (fun m g => incrIf m (f g)) m) =
        sumValues m + (l.filter (fun g => truthyS (f g))).length := by
  intro l
  induction l with
  | nil => intro m; simp
  | cons g l ih =>
    intro m
    simp only [List.foldl_cons, List.filter_cons]
    rw [ih]
    rw [sumValues_incrIf]
    by_cases h : truthyS (f g) = true
    · simp [h]
      omega
    · simp only [Bool.not_eq_true] at h
      simp [h]

/-- C5: the sum of all values of byOpponent equals the number of
non-playoff MergedRecords with a truthy opponent field; playoff records
and records with an empty or absent opponent contribute nothing. -/
theorem byOpponent_sum (gs : List MergedRecord) :
    sumValues (rebuild_stats gs).byOpponent =
      (gs.filter (fun g => !g.isPlayoffs && truthyS g.opponent)).length := by
  have h := sumValues_buildCounts (fun g => g.opponent)
    (gs.filter (fun g => !g.isPlayoffs)) []
  simp only [rebuild_stats, buildCounts] at *
  rw [h, List.filter_filter]
  have : (fun g : MergedRecord => truthyS g.opponent && !g.isPlayoffs) =
      fun g : MergedRecord => !g.isPlayoffs && truthyS g.opponent := by
    funext g
    exact Bool.and_comm _ _
  rw [this]
  simp [sumValues]

/-- Witness for C5 at a concrete input. -/
theorem byOpponent_sum_witness :
    sumValues (rebuild_stats [mkMerged gEx none]).byOpponent = 1 :=
  (byOpponent_sum [mkMerged gEx none]).trans rfl

/-- Helper: membership after a descending insertion. -/
theorem mem_insertDesc (x z : String × Nat) :
    ∀ l : List (String × Nat), z ∈ insertDesc x l → z = x ∨ z ∈ l := by
  intro l
  induction l with
  | nil => intro h; simpa [insertDesc] using h
  | cons y ys ih =>
    intro h
    simp only [insertDesc] at h
    by_cases hc : y.2 ≤ x.2
    · rw [if_pos hc] at h
      rcases List.mem_cons.mp h with h1 | h1
      · exact Or.inl h1
      · exact Or.inr h1
    · rw [if_neg hc] at h
      rcases List.mem_cons.mp h with h1 | h1
      · exact Or.inr (by simp [h1])
      · rcases ih h1 with h2 | h2
        · exact Or.inl h2
        · exact Or.inr (List.mem_cons_of_mem y h2)

/-- Helper: descending insertion preserves descending order. -/
theorem pairwise_insertDesc (x : String × Nat) :
    ∀ l : List (String × Nat), l.Pairwise (fun a b => b.2 ≤ a.2) →
      (insertDesc x l).Pairwise (fun a b => b.2 ≤ a.2) := by
  intro l
  induction l with
  | nil => intro _; simp [insertDesc]
  | cons y ys ih =>
    intro h
    obtain ⟨hy, hys⟩ := List.pairwise_cons.mp h
    simp only [insertDesc]
    by_cases hc : y.2 ≤ x.2
    · rw [if_pos hc]
      refine List.pairwise_cons.mpr ⟨?_, h⟩
      intro z hz
      rcases List.mem_cons.mp hz with h1 | h1
      · subst h1; exact hc
      · exact le_trans (hy z h1) hc
    · rw [if_neg hc]
      refine List.pairwise_cons.mpr ⟨?_, ih hys⟩
      intro z hz
      rcases mem_insertDesc x z ys hz with h1 | h1
      · subst h1; omega
      · exact hy z h1

/-- Helper: the stable descending sort is descending. -/
theorem pairwise_sortDesc :
    ∀ l : List (String × Nat), (sortDesc l).Pairwise (fun a b => b.2 ≤ a.2) := by
  intro l
  induction l with
  | nil => simp [sortDesc]
  | cons x xs ih => exact pairwise_insertDesc x (sortDesc xs) ih

/-- Helper: a prefix of a descending list is a bounded descending list. -/
theorem take_sorted_bounded (l : List (String × Nat)) (n : Nat)
    (h : l.Pairwise (fun a b => b.2 ≤ a.2)) :
    (l.take n).length ≤ n ∧ (l.take n).Pairwise (fun a b => b.2 ≤ a.2) :=
  ⟨List.length_take_le n l, h.sublist (List.take_sublist n l)⟩

/-- C6: the three ranked lists have length at most 20, 20 and 10, and
each is sorted by descending count. -/
theorem top_lists_bounded_sorted (gs : List MergedRecord) :
    ((rebuild_stats gs).topAssisters.length ≤ 20 ∧
      (rebuild_stats gs).topAssisters.Pairwise (fun a b => b.2 ≤ a.2)) ∧
    ((rebuild_stats gs).topGoalies.length ≤ 20 ∧
      (rebuild_stats gs).topGoalies.Pairwise (fun a b => b.2 ≤ a.2)) ∧
    ((rebuild_stats gs).topOpponents.length ≤ 10 ∧
      (rebuild_stats gs).topOpponents.Pairwise (fun a b => b.2 ≤ a.2)) := by
  refine ⟨?_, ?_, ?_⟩ <;>
    simp only [rebuild_stats] <;>
    exact take_sorted_bounded _ _ (pairwise_sortDesc _)

/-- Witness for C6 at a concrete input. -/
theorem top_lists_bounded_sorted_witness :
    (rebuild_stats [mkMerged gEx none]).topAssisters.length ≤ 20 ∧
    (rebuild_stats [mkMerged gEx none]).topOpponents.length ≤ 10 :=
  ⟨(top_lists_bounded_sorted [mkMerged gEx none]).1.1,
    (top_lists_bounded_sorted [mkMerged gEx none]).2.2.1⟩

/-- Helper: dict assignment then lookup at the same key reads the new
value. -/
theorem lookupPy_insertPy_self (k : String) (v : MPRecord) :
    ∀ m : MPMap, lookupPy (insertPy m k v) k = some v := by
  intro m
  induction m with
  | nil => simp [insertPy, lookupPy]
  | cons p rest ih =>
    obtain ⟨k2, v2⟩ := p
    by_cases h : k2 = k
    · simp [insertPy, lookupPy, h]
    · simp [insertPy, lookupPy, h, ih]

/-- Helper: dict assignment leaves lookups at other keys unchanged. -/
theorem lookupPy_insertPy_ne (k k2 : String) (v : MPRecord) (hne : k ≠ k2) :
    ∀ m : MPMap, lookupPy (insertPy m k v) k2 = lookupPy m k2 := by
  intro m
  induction m with
  | nil => simp [insertPy, lookupPy, hne]
  | cons p rest ih =>
    obtain ⟨k3, v3⟩ := p
    by_cases h : k3 = k
    · subst h
      simp [insertPy, lookupPy, hne]
    · simp only [insertPy, if_neg h, lookupPy]
      by_cases h2 : k3 = k2
      · simp [h2]
      · simp [h2, ih]

/-- Helper: a lookup into the mapping built by the loader loop reads the
record of the last producing row, falling back to the threaded map. -/
theorem loadRows_lookup (k : String) :
    ∀ (rows : List Row) (m : MPMap),
      lookupPy (loadRows rows m) k =
        (match lastKeyed rows k with
         | some v => some v
         | none => lookupPy m k) := by
  intro rows
  induction rows with
  | nil => intro m; simp [loadRows, lastKeyed]
  | cons r rs ih =>
    intro m
    simp only [loadRows, lastKeyed]
    rw [ih]
    cases hlast : lastKeyed rs k with
    | some v => simp
    | none =>
      simp only
      by_cases hp : rowPasses r = true
      · by_cases hk : rowKey r = k
        · subst hk
          simp [hp, lookupPy_insertPy_self]
        · simp [hp, hk, lookupPy_insertPy_ne (rowKey r) k (rowRecord r) hk]
      · simp [hp]

/-- C8: the mapping the loader returns holds, at every key, the
shot-detail record of the last filtered row in file order that built
that key; earlier rows with the key are silently overwritten. -/
theorem duplicate_key_last_wins (rows : List Row) (k : String) :
    lookupPy (load_moneypuck_goals (some rows)) k = lastKeyed rows k := by
  have h := loadRows_lookup k rows []
  simp only [load_moneypuck_goals] at *
  rw [h]
  cases lastKeyed rows k <;> simp [lookupPy]

/-- Witness for C8 at a concrete duplicate-key input: the second of two
rows sharing a key supplies the stored record. -/
theorem duplicate_key_last_wins_witness :
    lookupPy (load_moneypuck_goals (some [rowDupA, rowDupB])) "2005-10-05_2_8:15" =
      some (rowRecord rowDupB) :=
  (duplicate_key_last_wins [rowDupA, rowDupB] "2005-10-05_2_8:15").trans rfl

/-- Helper: splitting a list that lacks the separator yields the whole
list as the one piece. -/
theorem pySplitSep_of_not_mem (sep : Char) :
    ∀ cs : List Char, sep ∉ cs → pySplitSep sep cs = [cs] := by
  intro cs
  induction cs with
  | nil => intro h; rfl
  | cons c cs ih =>
    intro h
    have hne : ¬(c = sep) := fun hc => h (by simp [hc])
    have h2 : sep ∉ cs := fun hc => h (List.mem_cons_of_mem c hc)
    simp [pySplitSep, if_neg hne, ih h2]

/-- C2 counterexample: the code tests only the length of the raw date,
so an 8-character value containing slashes is sliced by position instead
of being reformatted from MM/DD/YYYY as the claim mandates. -/
theorem date_len8_counterexample :
    normalizeDate "1/2/2005" = "1/2/-20-05" ∧ normalizeDate "1/2/2005" ≠ "2005-01-02" :=
  ⟨rfl, by decide⟩

/-- C2 amended: any 8-character raw date, numeric or not, is sliced into
YYYY-MM-DD positions; otherwise a value splitting on slash into at least
three parts is rebuilt as part2-part0-part1 with zero-padding, a value
with fewer slash-parts is kept raw, and the two concrete normalizations
of the claim hold. -/
theorem normalizeDate_amended :
    (∀ s : String, s.data.length = 8 →
        normalizeDate s =
          String.mk (s.data.take 4) ++ "-" ++ String.mk ((s.data.drop 4).take 2) ++ "-" ++
            String.mk ((s.data.drop 6).take 2)) ∧
    (∀ (s p0 p1 p2 : String) (rest : List String), s.data.length ≠ 8 →
        pySplit s '/' = p0 :: p1 :: p2 :: rest →
        normalizeDate s = p2 ++ "-" ++ padLeft2 p0 ++ "-" ++ padLeft2 p1) ∧
    (∀ s : String, s.data.length ≠ 8 → (pySplit s '/').length ≤ 2 → normalizeDate s = s) ∧
    normalizeDate "20051005" = "2005-10-05" ∧ normalizeDate "10/5/2005" = "2005-10-05" := by
  refine ⟨?_, ?_, ?_, rfl, rfl⟩
  · intro s h
    simp [normalizeDate, h]
  · intro s p0 p1 p2 rest h8 hsplit
    have hmem : '/' ∈ s.data := by
      by_contra hnm
      rw [pySplit, pySplitSep_of_not_mem _ _ hnm] at hsplit
      simp at hsplit
    have hcont : s.data.contains '/' = true := by simpa using hmem
    simp only [normalizeDate, if_neg h8, hcont, if_true]
    rw [hsplit]
  · intro s h8 hlen
    have h8l : ¬s.length = 8 := h8
    by_cases hcont : '/' ∈ s.data
    · rcases hsp : pySplit s '/' with _ | ⟨a, _ | ⟨b, _ | ⟨c, rest⟩⟩⟩
      · simp [normalizeDate, h8l, hcont, hsp]
      · simp [normalizeDate, h8l, hcont, hsp]
      · simp [normalizeDate, h8l, hcont, hsp]
      · rw [hsp] at hlen
        simp at hlen
    · simp [normalizeDate, h8l, hcont]

/-- Witness for the amended C2 at a concrete input. -/
theorem normalizeDate_amended_witness :
    normalizeDate "10/5/2005" = "2005-10-05" :=
  (normalizeDate_amended.2.1 "10/5/2005" "10" "5" "2005" [] (by decide) rfl).trans rfl

/-- C4 counterexample: a passing row whose resolved x cell is nonempty
and float-parseable still stores a null x coordinate, because the shared
exception handler nulls both coordinates when y fails to parse. -/
theorem coord_joint_null_counterexample :
    rowPasses rowEx = true ∧
    pyOr (pyOr (pyGet rowEx "xCord") (pyGet rowEx "xCoord")) (pyGet rowEx "x") = some "1.5" ∧
    pyFloatAccepts "1.5" = true ∧ pyFloatAccepts "abc" = false ∧
    (rowRecord rowEx).xCoord = none :=
  ⟨rfl, rfl, rfl, rfl, rfl⟩

/-- C4 amended: the coordinates are converted jointly; each is null when
its own cell is falsy, both are null when either nonempty cell fails to
parse, and otherwise each holds its parsed value. -/
theorem parseCoords_amended (x0 y0 : Option String) :
    parseCoords x0 y0 =
      if okCoord x0 && okCoord y0 then
        (if truthyS x0 then x0 else none, if truthyS y0 then y0 else none)
      else (none, none) := by
  cases x0 <;> cases y0 <;>
    simp only [parseCoords, coordVal, okCoord, truthyS] <;>
    split_ifs <;> simp_all

/-- Witness for the amended C4 at a concrete input. -/
theorem parseCoords_amended_witness :
    parseCoords (some "1.5") (some "abc") = (none, none) :=
  (parseCoords_amended (some "1.5") (some "abc")).trans rfl

end OviMerge
